import Mathlib

/-!
Verification of the log-processing pipeline (`pipeline.py`).

We shallowly embed the pipeline's pure core over `List Char`:
the three format matchers (`parse_firewall`, `parse_dns`, `parse_auth`),
the dispatcher `parse_log_line`, the Reader's file-sweep behaviour,
the Processor's consume loop, and the store-connection retry logic.
Regular-expression matchers from the source are embedded as deterministic
token parsers: each `\S+` / `\s+` / `\d+` / literal component of the
source patterns admits exactly one viable match under backtracking
(each greedy run is forced by the following mandatory character class),
so the regexes are equivalent to the sequential scanners below.
-/

/-- Python `\s` / `str.strip` whitespace on ASCII input. -/
def isSpace (c : Char) : Bool :=
  c = ' ' || c = '\t' || c = '\n' || c = '\r' || c = '\x0b' || c = '\x0c'

/-- Python `\d` on ASCII input. -/
def isDigit (c : Char) : Bool :=
  '0' ≤ c && c ≤ '9'

/-- Parsed fields, modelling the Python dict built by each matcher.
Later insertions are prepended, so `List.lookup` (first match) realises
Python's last-write-wins dict semantics. -/
abbrev Fields := List (String × String)

/-- One `\S+` component: the maximal nonempty run of non-whitespace. -/
def tok (l : List Char) : Option (List Char × List Char) :=
  let t := l.takeWhile (fun c => !isSpace c)
  if t = [] then none else some (t, l.dropWhile (fun c => !isSpace c))

/-- One `\s+` component: at least one whitespace char, consumed maximally. -/
def ws (l : List Char) : Option (List Char) :=
  match l with
  | [] => none
  | c :: r => if isSpace c then some (r.dropWhile isSpace) else none

/-- A literal component: consume exactly the given characters. -/
def lit : List Char → List Char → Option (List Char)
  | [], l => some l
  | _ :: _, [] => none
  | c :: s, c' :: l => if c = c' then lit s l else none

/-- One `\d+` component: the maximal nonempty run of digits. -/
def digits (l : List Char) : Option (List Char × List Char) :=
  let d := l.takeWhile isDigit
  if d = [] then none else some (d, l.dropWhile isDigit)

/-- Python `line.split("|")`. -/
def splitPipe (l : List Char) : List (List Char) :=
  match l with
  | [] => [[]]
  | c :: r =>
    if c = '|' then [] :: splitPipe r
    else
      match splitPipe r with
      | s :: ss => (c :: s) :: ss
      | [] => [[c]]

/-- Left half of Python `part.split("=", 1)`. -/
def keyOf (p : List Char) : List Char := p.takeWhile (fun c => c ≠ '=')

/-- Right half of Python `part.split("=", 1)`. -/
def valOf (p : List Char) : List Char := (p.dropWhile (fun c => c ≠ '=')).drop 1

/-- One iteration of the firewall parser's field loop:
`if "=" in part: key, value = part.split("=", 1); parsed[key] = value`. -/
def fwInsert (m : Fields) (p : List Char) : Fields :=
  if '=' ∈ p then (String.mk (keyOf p), String.mk (valOf p)) :: m else m

/-- `parse_firewall` from `pipeline.py`. -/
def parse_firewall (l : List Char) : Option Fields :=
  if '|' ∈ l ∧ '=' ∈ l then
    let parts := splitPipe l
    if parts.length < 3 then none
    else some (parts.tail.foldl fwInsert
      [("log_type", "firewall"), ("timestamp", String.mk parts.headI)])
  else none

def clientL : List Char := ['c', 'l', 'i', 'e', 'n', 't']
def queryL : List Char := ['q', 'u', 'e', 'r', 'y', ':']
def inL : List Char := ['I', 'N']

/-- `parse_dns` from `pipeline.py`: the anchored-at-start pattern
`(\S+)\s+client\s+(\S+)\s+query:\s+(\S+)\s+IN\s+(\S+)\s+\S+\s+\((\S+)\)\s+(\S+)`
run by `re.match`.  The parenthesised group `\((\S+)\)\s` forces the token
after `(` to end in `)` with a nonempty interior. -/
def parse_dns (l : List Char) : Option Fields :=
  match tok l with
  | none => none
  | some (ts, r1) =>
  match ws r1 with
  | none => none
  | some r2 =>
  match lit clientL r2 with
  | none => none
  | some r3 =>
  match ws r3 with
  | none => none
  | some r4 =>
  match tok r4 with
  | none => none
  | some (cip, r5) =>
  match ws r5 with
  | none => none
  | some r6 =>
  match lit queryL r6 with
  | none => none
  | some r7 =>
  match ws r7 with
  | none => none
  | some r8 =>
  match tok r8 with
  | none => none
  | some (dom, r9) =>
  match ws r9 with
  | none => none
  | some r10 =>
  match lit inL r10 with
  | none => none
  | some r11 =>
  match ws r11 with
  | none => none
  | some r12 =>
  match tok r12 with
  | none => none
  | some (qt, r13) =>
  match ws r13 with
  | none => none
  | some r14 =>
  match tok r14 with
  | none => none
  | some (_, r15) =>
  match ws r15 with
  | none => none
  | some r16 =>
  match lit ['('] r16 with
  | none => none
  | some r17 =>
  match tok r17 with
  | none => none
  | some (m, r18) =>
  if m.getLast? = some ')' ∧ m.dropLast ≠ [] then
    match ws r18 with
    | none => none
    | some r19 =>
    match tok r19 with
    | none => none
    | some (rc, _) =>
      some [("log_type", "dns"), ("timestamp", String.mk ts),
            ("client_ip", String.mk cip), ("query_domain", String.mk dom),
            ("query_type", String.mk qt), ("server_ip", String.mk m.dropLast),
            ("response_code", String.mk rc)]
  else none

def sshdL : List Char := ['s', 's', 'h', 'd', '[']
def acceptedL : List Char := ['A', 'c', 'c', 'e', 'p', 't', 'e', 'd']
def failedL : List Char := ['F', 'a', 'i', 'l', 'e', 'd']
def forL : List Char := ['f', 'o', 'r']
def fromL : List Char := ['f', 'r', 'o', 'm']
def portL : List Char := ['p', 'o', 'r', 't']

/-- `parse_auth` from `pipeline.py`: the anchored-at-start pattern
`(\S+)\s+(\S+)\s+sshd\[(\d+)\]:\s+(Accepted|Failed)\s+(\S+)\s+for\s+(\S+)\s+from\s+(\S+)\s+port\s+(\d+)`
run by `re.match`.  The two alternation branches start with distinct
characters, so the alternation is deterministic. -/
def parse_auth (l : List Char) : Option Fields :=
  match tok l with
  | none => none
  | some (ts, r1) =>
  match ws r1 with
  | none => none
  | some r2 =>
  match tok r2 with
  | none => none
  | some (host, r3) =>
  match ws r3 with
  | none => none
  | some r4 =>
  match lit sshdL r4 with
  | none => none
  | some r5 =>
  match digits r5 with
  | none => none
  | some (pid, r6) =>
  match lit [']', ':'] r6 with
  | none => none
  | some r7 =>
  match ws r7 with
  | none => none
  | some r8 =>
  match
    (match lit acceptedL r8 with
     | some r9 => some (acceptedL, r9)
     | none =>
       match lit failedL r8 with
       | some r9 => some (failedL, r9)
       | none => none) with
  | none => none
  | some (st, r9) =>
  match ws r9 with
  | none => none
  | some r10 =>
  match tok r10 with
  | none => none
  | some (meth, r11) =>
  match ws r11 with
  | none => none
  | some r12 =>
  match lit forL r12 with
  | none => none
  | some r13 =>
  match ws r13 with
  | none => none
  | some r14 =>
  match tok r14 with
  | none => none
  | some (user, r15) =>
  match ws r15 with
  | none => none
  | some r16 =>
  match lit fromL r16 with
  | none => none
  | some r17 =>
  match ws r17 with
  | none => none
  | some r18 =>
  match tok r18 with
  | none => none
  | some (sip, r19) =>
  match ws r19 with
  | none => none
  | some r20 =>
  match lit portL r20 with
  | none => none
  | some r21 =>
  match ws r21 with
  | none => none
  | some r22 =>
  match digits r22 with
  | none => none
  | some (port, _) =>
    some [("log_type", "auth"), ("timestamp", String.mk ts),
          ("hostname", String.mk host), ("pid", String.mk pid),
          ("status", String.mk st), ("auth_method", String.mk meth),
          ("username", String.mk user), ("source_ip", String.mk sip),
          ("source_port", String.mk port)]

/-- The `PARSERS` list from `pipeline.py`. -/
def PARSERS : List (List Char → Option Fields) :=
  [parse_firewall, parse_dns, parse_auth]

/-- The loop body of `parse_log_line`: first parser returning a result wins. -/
def tryParsers : List (List Char → Option Fields) → List Char → Option Fields
  | [], _ => none
  | p :: ps, l =>
    match p l with
    | some r => some r
    | none => tryParsers ps l

/-- `parse_log_line` from `pipeline.py`. -/
def parse_log_line (l : List Char) : Option Fields :=
  tryParsers PARSERS l

/-- The wire unit pushed by the Reader: `{"line": ..., "source_file": ...}`. -/
structure QueueMessage where
  line : List Char
  source_file : List Char
deriving DecidableEq, Repr

/-- Python `str.strip()` on ASCII input. -/
def strip (l : List Char) : List Char :=
  ((l.dropWhile isSpace).reverse.dropWhile isSpace).reverse

/-- Python `filename.endswith(".log")`. -/
def isLogFile (name : List Char) : Bool :=
  ['.', 'l', 'o', 'g'].isSuffixOf name

/-- The Reader's per-file loop: strip each line, skip blanks, and package
each remaining line as a `QueueMessage` carrying the file's name, in file
order. -/
def fileMessages (name : List Char) (lines : List (List Char)) : List QueueMessage :=
  lines.filterMap (fun l =>
    let t := strip l
    if t = [] then none else some ⟨t, name⟩)

/-- One directory sweep of `reader()`: the listed files (name with their
lines) are visited in order; a file already processed or not ending in
`.log` is skipped, any other file has its messages appended to the queue
and its name added to the processed set. -/
def readerSweep :
    List (List Char × List (List Char)) → List (List Char) → List QueueMessage →
      List (List Char) × List QueueMessage
  | [], processed, queue => (processed, queue)
  | (name, lines) :: rest, processed, queue =>
    if name ∈ processed ∨ isLogFile name = false then
      readerSweep rest processed queue
    else
      readerSweep rest (processed ++ [name]) (queue ++ fileMessages name lines)

/-- A row of the `logs` table as the Processor inserts it. -/
structure StoredRow where
  log_type : Option String
  raw_line : List Char
  timestamp : Option String
  source_file : List Char
  parsed_data : Fields
deriving DecidableEq, Repr

/-- The INSERT the Processor performs for one parsed message. -/
def mkRow (parsed : Fields) (line : List Char) (source_file : List Char) : StoredRow :=
  { log_type := parsed.lookup "log_type"
    raw_line := line
    timestamp := parsed.lookup "timestamp"
    source_file := source_file
    parsed_data := parsed }

/-- A dequeued payload as the Processor's loop body sees it after the
broker hands it over: `some (line, source_file)` when `json.loads`
followed by the two subscript accesses succeeds, `none` when the payload
cannot be decoded into the two required fields (in the source this raises
`JSONDecodeError`/`KeyError`). -/
abbrev Payload := Option (List Char × List Char)

/-- The `processor()` consume loop over a finite stream of dequeued
payloads, threading the table contents.  An undecodable payload raises in
the source — there is no handler in the loop — so the run aborts with an
error; an unparseable line is dropped and the loop continues; a parsed
line appends one row. -/
def processorRun : List Payload → List StoredRow → Except String (List StoredRow)
  | [], rows => .ok rows
  | none :: _, _ => .error "unhandled decode exception"
  | some (line, source_file) :: rest, rows =>
    match parse_log_line line with
    | none => processorRun rest rows
    | some parsed => processorRun rest (rows ++ [mkRow parsed line source_file])

/-- `get_pg_connection`'s retry loop over the remaining attempt indices:
`ok i` tells whether attempt `i` would succeed.  Returns the successful
attempt index (or `none` when the final failure is re-raised) together
with the number of 2-second backoff sleeps performed. -/
def pgLoop (ok : Nat → Bool) : List Nat → Option Nat × Nat
  | [] => (none, 0)
  | a :: rest =>
    if ok a then (some a, 0)
    else if a < 4 then
      let (r, s) := pgLoop ok rest
      (r, s + 1)
    else (none, 0)

/-- `get_pg_connection` from `pipeline.py`: `for attempt in range(5)`. -/
def get_pg_connection (ok : Nat → Bool) : Option Nat × Nat :=
  pgLoop ok (List.range 5)

/-- `get_redis_client` from `pipeline.py`: a single constructor call with
no retry loop around it. -/
def get_redis_client (ok : Bool) : Option Unit × Nat :=
  (if ok then some () else none, 0)

/-- A `\S+` token: nonempty and free of whitespace. -/
abbrev Tok (t : List Char) : Prop := t ≠ [] ∧ ∀ c ∈ t, isSpace c = false

/-- A digit run: nonempty and all digits (and, as a token, non-whitespace). -/
abbrev DigitTok (t : List Char) : Prop :=
  t ≠ [] ∧ (∀ c ∈ t, isDigit c = true) ∧ ∀ c ∈ t, isSpace c = false

/-- A `\s+` run: nonempty and all whitespace. -/
abbrev Ws (w : List Char) : Prop := w ≠ [] ∧ ∀ c ∈ w, isSpace c = true

lemma takeWhile_append_eq {p : Char → Bool} {t r : List Char}
    (ht : ∀ c ∈ t, p c = true) (hr : ∀ c, r.head? = some c → p c = false) :
    (t ++ r).takeWhile p = t := by
  induction t with
  | nil =>
    cases r with
    | nil => rfl
    | cons c r' => simp [List.takeWhile_cons, hr c rfl]
  | cons c t' ih =>
    have hc := ht c (by simp)
    have ih' := ih (fun d hd => ht d (by simp [hd]))
    simp [List.takeWhile_cons, hc, ih']

lemma dropWhile_append_eq {p : Char → Bool} {t r : List Char}
    (ht : ∀ c ∈ t, p c = true) (hr : ∀ c, r.head? = some c → p c = false) :
    (t ++ r).dropWhile p = r := by
  induction t with
  | nil =>
    cases r with
    | nil => rfl
    | cons c r' => simp [List.dropWhile_cons, hr c rfl]
  | cons c t' ih =>
    have hc := ht c (by simp)
    have ih' := ih (fun d hd => ht d (by simp [hd]))
    simp [List.dropWhile_cons, hc, ih']

lemma mem_takeWhile_pred {p : Char → Bool} {l : List Char} {c : Char}
    (h : c ∈ l.takeWhile p) : p c = true := by
  induction l with
  | nil => simp at h
  | cons a l ih =>
    rw [List.takeWhile_cons] at h
    by_cases hp : p a = true
    · simp only [hp, if_true, List.mem_cons] at h
      rcases h with rfl | h
      · exact hp
      · exact ih h
    · simp [hp] at h

lemma tok_append {t r : List Char} (ht : Tok t)
    (hr : ∀ c, r.head? = some c → isSpace c = true) :
    tok (t ++ r) = some (t, r) := by
  have h1 : ∀ c ∈ t, (!isSpace c) = true := fun c hc => by simp [ht.2 c hc]
  have h2 : ∀ c, r.head? = some c → (!isSpace c) = false := fun c hc => by simp [hr c hc]
  simp only [tok, takeWhile_append_eq h1 h2, dropWhile_append_eq h1 h2]
  simp [ht.1]

lemma ws_cons {c : Char} {r : List Char} (hc : isSpace c = true)
    (hr : ∀ d, r.head? = some d → isSpace d = false) :
    ws (c :: r) = some r := by
  have : r.dropWhile isSpace = r := by
    cases r with
    | nil => rfl
    | cons d r' => simp [List.dropWhile_cons, hr d rfl]
  simp [ws, hc, this]

lemma lit_append (s l : List Char) : lit s (s ++ l) = some l := by
  induction s with
  | nil => rfl
  | cons c s' ih => simp [lit, ih]

lemma lit_eq_some {s l r : List Char} : lit s l = some r ↔ l = s ++ r := by
  induction s generalizing l with
  | nil => simp [lit, eq_comm]
  | cons c s' ih =>
    cases l with
    | nil => simp [lit]
    | cons c' l' =>
      by_cases h : c = c'
      · subst h
        simp only [lit, if_pos rfl, List.cons_append, List.cons.injEq, true_and]
        exact ih
      · simp [lit, h, Ne.symm h]

lemma digits_append {d r : List Char} (hd : d ≠ [])
    (hd2 : ∀ c ∈ d, isDigit c = true)
    (hr : ∀ c, r.head? = some c → isDigit c = false) :
    digits (d ++ r) = some (d, r) := by
  simp only [digits, takeWhile_append_eq hd2 hr, dropWhile_append_eq hd2 hr]
  simp [hd]

lemma head_nonspace_of_tok {t r : List Char} (ht : Tok t) :
    ∀ c, (t ++ r).head? = some c → isSpace c = false := by
  intro c hc
  cases t with
  | nil => exact absurd rfl ht.1
  | cons a t' =>
    simp only [List.cons_append, List.head?_cons, Option.some.injEq] at hc
    exact hc ▸ ht.2 a (by simp)

lemma head_nondigit_of_rparen {r : List Char} :
    ∀ c, (')' :: r).head? = some c → isDigit c = false := by
  intro c hc
  simp only [List.head?_cons, Option.some.injEq] at hc
  subst hc
  decide

/-- Inversion for `tok`: a successful `\S+` step decomposes the input into
a nonempty whitespace-free token followed by a whitespace-or-empty rest. -/
lemma tok_eq_some {l t r : List Char} (h : tok l = some (t, r)) :
    l = t ++ r ∧ Tok t ∧ ∀ c, r.head? = some c → isSpace c = true := by
  simp only [tok] at h
  by_cases ht : l.takeWhile (fun c => !isSpace c) = []
  · simp [ht] at h
  · rw [if_neg ht] at h
    have h' := Option.some.inj h
    have h1 : l.takeWhile (fun c => !isSpace c) = t := congrArg Prod.fst h'
    have h2 : l.dropWhile (fun c => !isSpace c) = r := congrArg Prod.snd h'
    subst h1
    subst h2
    refine ⟨(List.takeWhile_append_dropWhile _ _).symm, ⟨ht, ?_⟩, ?_⟩
    · intro c hc
      simpa using mem_takeWhile_pred hc
    · intro c hc
      have h0 := List.head?_dropWhile_not (fun c => !isSpace c) l
      rw [hc] at h0
      simpa using h0

/-- Inversion for `ws`: a successful `\s+` step consumes a nonempty
whitespace run, leaving a rest that does not begin with whitespace. -/
lemma ws_eq_some {l r : List Char} (h : ws l = some r) :
    ∃ w, l = w ++ r ∧ Ws w ∧ ∀ c, r.head? = some c → isSpace c = false := by
  cases l with
  | nil => simp [ws] at h
  | cons c x =>
    simp only [ws] at h
    by_cases hc : isSpace c = true
    · rw [if_pos hc] at h
      have hr : x.dropWhile isSpace = r := Option.some.inj h
      refine ⟨c :: x.takeWhile isSpace, ?_, ⟨by simp, ?_⟩, ?_⟩
      · rw [List.cons_append]
        have : x = x.takeWhile isSpace ++ r := by
          rw [← hr]
          exact (List.takeWhile_append_dropWhile _ _).symm
        rw [← this]
      · intro d hd
        rcases List.mem_cons.1 hd with rfl | hd'
        · exact hc
        · exact mem_takeWhile_pred hd'
      · intro d hd
        rw [← hr] at hd
        have h0 := List.head?_dropWhile_not isSpace x
        rw [hd] at h0
        simpa using h0
    · rw [if_neg hc] at h
      simp at h

lemma tok_space {t r : List Char} (ht : Tok t) :
    tok (t ++ ' ' :: r) = some (t, ' ' :: r) :=
  tok_append ht (by intro c hc; simp at hc; subst hc; decide)

lemma ws_nonspace {x : List Char}
    (hx : ∀ c, x.head? = some c → isSpace c = false) :
    ws (' ' :: x) = some x :=
  ws_cons (by decide) hx

lemma ws_lparen {x : List Char} : ws (' ' :: '(' :: x) = some ('(' :: x) :=
  ws_nonspace (by intro c hc; simp at hc; subst hc; decide)

lemma lit_lparen {x : List Char} : lit ['('] ('(' :: x) = some x := by
  simp [lit]

lemma tok_paren {s r : List Char} (hs : Tok s) :
    tok (s ++ ')' :: ' ' :: r) = some (s ++ [')'], ' ' :: r) := by
  have he : s ++ ')' :: ' ' :: r = (s ++ [')']) ++ (' ' :: r) := by simp
  rw [he]
  refine tok_append ⟨by simp, ?_⟩ (by intro c hc; simp at hc; subst hc; decide)
  intro c hc
  rcases List.mem_append.1 hc with h1 | h2
  · exact hs.2 c h1
  · simp at h2; subst h2; decide

lemma tokClientL : Tok clientL := by constructor <;> decide
lemma tokQueryL : Tok queryL := by constructor <;> decide
lemma tokInL : Tok inL := by constructor <;> decide

/-- C3 amended: the DNS matcher is anchored at the start of the line only,
and accepts exactly the lines that begin with the DNS grammar.  Forward:
every line consisting of the grammar — timestamp, the literal `client`,
client_ip, the literal `query:`, domain, the literal `IN`, query_type, the
ignored plus token, `(server_ip)`, response_code — followed by an
arbitrary whitespace-opened (or empty) continuation is accepted, with each
extracted field equal to the literal substring at its grammar position:
extra trailing tokens do not make this matcher fail.  Converse: every
accepted line decomposes into exactly that grammar shape (tokens separated
by whitespace runs), so any deviation within the grammar prefix — missing
tokens or wrong literals — makes this matcher fail (falls through to the
next matcher). -/
theorem C3_dns_amended :
    (∀ ts cip dom qt plus sip rc tail : List Char, Tok ts → Tok cip →
      Tok dom → Tok qt → Tok plus → Tok sip → Tok rc →
      (∀ c, tail.head? = some c → isSpace c = true) →
      parse_dns (ts ++ ' ' :: clientL ++ ' ' :: cip ++ ' ' :: queryL ++ ' ' :: dom ++
          ' ' :: inL ++ ' ' :: qt ++ ' ' :: plus ++ ' ' :: '(' :: sip ++
          ')' :: ' ' :: rc ++ tail) =
        some [("log_type", "dns"), ("timestamp", String.mk ts),
              ("client_ip", String.mk cip), ("query_domain", String.mk dom),
              ("query_type", String.mk qt), ("server_ip", String.mk sip),
              ("response_code", String.mk rc)]) ∧
    (∀ l f, parse_dns l = some f →
      ∃ ts cip dom qt plus sip rc w1 w2 w3 w4 w5 w6 w7 w8 w9 tail : List Char,
        Tok ts ∧ Tok cip ∧ Tok dom ∧ Tok qt ∧ Tok plus ∧ Tok sip ∧ Tok rc ∧
        Ws w1 ∧ Ws w2 ∧ Ws w3 ∧ Ws w4 ∧ Ws w5 ∧ Ws w6 ∧ Ws w7 ∧ Ws w8 ∧ Ws w9 ∧
        (∀ c, tail.head? = some c → isSpace c = true) ∧
        l = ts ++ w1 ++ clientL ++ w2 ++ cip ++ w3 ++ queryL ++ w4 ++ dom ++
          w5 ++ inL ++ w6 ++ qt ++ w7 ++ plus ++ w8 ++ '(' :: sip ++
          ')' :: w9 ++ rc ++ tail ∧
        f = [("log_type", "dns"), ("timestamp", String.mk ts),
             ("client_ip", String.mk cip), ("query_domain", String.mk dom),
             ("query_type", String.mk qt), ("server_ip", String.mk sip),
             ("response_code", String.mk rc)]) := by
  constructor
  · intro ts cip dom qt plus sip rc tail hts hcip hdom hqt hplus hsip hrc htail
    simp only [List.append_assoc, List.cons_append, List.nil_append]
    simp only [parse_dns, tok_space hts, tok_space hcip, tok_space hdom,
      tok_space hqt, tok_space hplus,
      ws_nonspace (head_nonspace_of_tok tokClientL),
      ws_nonspace (head_nonspace_of_tok tokQueryL),
      ws_nonspace (head_nonspace_of_tok tokInL),
      ws_nonspace (head_nonspace_of_tok hcip),
      ws_nonspace (head_nonspace_of_tok hdom),
      ws_nonspace (head_nonspace_of_tok hqt),
      ws_nonspace (head_nonspace_of_tok hplus),
      ws_nonspace (head_nonspace_of_tok hrc),
      ws_lparen, lit_lparen, lit_append, tok_paren hsip,
      tok_append hrc htail,
      List.getLast?_concat, List.dropLast_concat, ne_eq, hsip.1,
      not_false_eq_true, and_true, and_self, if_true, reduceCtorEq]
  · intro l f hf
    simp only [parse_dns] at hf
    cases h1 : tok l with
    | none => simp [h1] at hf
    | some p1 =>
    obtain ⟨ts, r1⟩ := p1
    simp only [h1] at hf
    cases h2 : ws r1 with
    | none => simp [h2] at hf
    | some r2 =>
    simp only [h2] at hf
    cases h3 : lit clientL r2 with
    | none => simp [h3] at hf
    | some r3 =>
    simp only [h3] at hf
    cases h4 : ws r3 with
    | none => simp [h4] at hf
    | some r4 =>
    simp only [h4] at hf
    cases h5 : tok r4 with
    | none => simp [h5] at hf
    | some p5 =>
    obtain ⟨cip, r5⟩ := p5
    simp only [h5] at hf
    cases h6 : ws r5 with
    | none => simp [h6] at hf
    | some r6 =>
    simp only [h6] at hf
    cases h7 : lit queryL r6 with
    | none => simp [h7] at hf
    | some r7 =>
    simp only [h7] at hf
    cases h8 : ws r7 with
    | none => simp [h8] at hf
    | some r8 =>
    simp only [h8] at hf
    cases h9 : tok r8 with
    | none => simp [h9] at hf
    | some p9 =>
    obtain ⟨dom, r9⟩ := p9
    simp only [h9] at hf
    cases h10 : ws r9 with
    | none => simp [h10] at hf
    | some r10 =>
    simp only [h10] at hf
    cases h11 : lit inL r10 with
    | none => simp [h11] at hf
    | some r11 =>
    simp only [h11] at hf
    cases h12 : ws r11 with
    | none => simp [h12] at hf
    | some r12 =>
    simp only [h12] at hf
    cases h13 : tok r12 with
    | none => simp [h13] at hf
    | some p13 =>
    obtain ⟨qt, r13⟩ := p13
    simp only [h13] at hf
    cases h14 : ws r13 with
    | none => simp [h14] at hf
    | some r14 =>
    simp only [h14] at hf
    cases h15 : tok r14 with
    | none => simp [h15] at hf
    | some p15 =>
    obtain ⟨plus, r15⟩ := p15
    simp only [h15] at hf
    cases h16 : ws r15 with
    | none => simp [h16] at hf
    | some r16 =>
    simp only [h16] at hf
    cases h17 : lit ['('] r16 with
    | none => simp [h17] at hf
    | some r17 =>
    simp only [h17] at hf
    cases h18 : tok r17 with
    | none => simp [h18] at hf
    | some p18 =>
    obtain ⟨m, r18⟩ := p18
    simp only [h18] at hf
    by_cases hcond : m.getLast? = some ')' ∧ m.dropLast ≠ []
    · rw [if_pos hcond] at hf
      cases h19 : ws r18 with
      | none => simp [h19] at hf
      | some r19 =>
      simp only [h19] at hf
      cases h20 : tok r19 with
      | none => simp [h20] at hf
      | some p20 =>
      obtain ⟨rc, tail⟩ := p20
      simp only [h20] at hf
      have hfeq := (Option.some.inj hf).symm
      obtain ⟨hl, htokts, hb1⟩ := tok_eq_some h1
      obtain ⟨w1, he1, hw1, hb2⟩ := ws_eq_some h2
      have he2 : r2 = clientL ++ r3 := lit_eq_some.1 h3
      obtain ⟨w2, he3, hw2, hb3⟩ := ws_eq_some h4
      obtain ⟨he4, htokcip, hb4⟩ := tok_eq_some h5
      obtain ⟨w3, he5, hw3, hb5⟩ := ws_eq_some h6
      have he6 : r6 = queryL ++ r7 := lit_eq_some.1 h7
      obtain ⟨w4, he7, hw4, hb6⟩ := ws_eq_some h8
      obtain ⟨he8, htokdom, hb7⟩ := tok_eq_some h9
      obtain ⟨w5, he9, hw5, hb8⟩ := ws_eq_some h10
      have he10 : r10 = inL ++ r11 := lit_eq_some.1 h11
      obtain ⟨w6, he11, hw6, hb9⟩ := ws_eq_some h12
      obtain ⟨he12, htokqt, hb10⟩ := tok_eq_some h13
      obtain ⟨w7, he13, hw7, hb11⟩ := ws_eq_some h14
      obtain ⟨he14, htokplus, hb12⟩ := tok_eq_some h15
      obtain ⟨w8, he15, hw8, hb13⟩ := ws_eq_some h16
      have he16 : r16 = ['('] ++ r17 := lit_eq_some.1 h17
      obtain ⟨he17, htokm, hb14⟩ := tok_eq_some h18
      obtain ⟨w9, he18, hw9, hb15⟩ := ws_eq_some h19
      obtain ⟨he19, htokrc, hb16⟩ := tok_eq_some h20
      have hmne : m ≠ [] := by
        intro hmnil
        rw [hmnil] at hcond
        simp at hcond
      have hmdec : m.dropLast ++ [')'] = m := by
        have hlast := List.getLast?_eq_getLast_of_ne_nil hmne
        rw [hcond.1] at hlast
        have hlast' : ')' = m.getLast hmne := Option.some.inj hlast
        rw [hlast']
        exact List.dropLast_concat_getLast hmne
      have he17' : r17 = (m.dropLast ++ [')']) ++ r18 := by
        rw [hmdec]
        exact he17
      refine ⟨ts, cip, dom, qt, plus, m.dropLast, rc,
        w1, w2, w3, w4, w5, w6, w7, w8, w9, tail,
        htokts, htokcip, htokdom, htokqt, htokplus,
        ⟨hcond.2, fun c hcm => htokm.2 c (List.dropLast_subset m hcm)⟩,
        htokrc, hw1, hw2, hw3, hw4, hw5, hw6, hw7, hw8, hw9, hb16, ?_, hfeq⟩
      rw [hl, he1, he2, he3, he4, he5, he6, he7, he8, he9, he10, he11, he12,
        he13, he14, he15, he16, he17', he18, he19]
      simp [List.append_assoc]
    · rw [if_neg hcond] at hf
      simp at hf

lemma tokSshdL : Tok sshdL := by constructor <;> decide
lemma tokAcceptedL : Tok acceptedL := by constructor <;> decide
lemma tokFailedL : Tok failedL := by constructor <;> decide
lemma tokForL : Tok forL := by constructor <;> decide
lemma tokFromL : Tok fromL := by constructor <;> decide
lemma tokPortL : Tok portL := by constructor <;> decide

lemma head_nondigit_rbracket {x : List Char} :
    ∀ c, (']' :: x).head? = some c → isDigit c = false := by
  intro c hc; simp at hc; subst hc; decide

lemma lit_rbracket_colon {x : List Char} :
    lit [']', ':'] (']' :: ':' :: x) = some x := by
  simp [lit]

lemma lit_acc_of_failed {x : List Char} :
    lit acceptedL (failedL ++ x) = none := rfl

lemma ws_cons_none {c : Char} {x : List Char} (hc : isSpace c = false) :
    ws (c :: x) = none := by
  simp [ws, hc]

/-- The auth matcher on a line whose prefix matches the auth grammar up to
and including the literal `port` and its following whitespace: the result
is determined by running `\d+` on the remainder `r`, whose maximal digit
prefix (if nonempty) becomes `source_port`; nothing after it is examined. -/
lemma parse_auth_template (ts host pid st meth user sip r : List Char)
    (hts : Tok ts) (hhost : Tok host) (hpid : DigitTok pid)
    (hst : st = acceptedL ∨ st = failedL)
    (hmeth : Tok meth) (huser : Tok user) (hsip : Tok sip)
    (hr : ∀ c, r.head? = some c → isSpace c = false) :
    parse_auth (ts ++ ' ' :: host ++ ' ' :: sshdL ++ pid ++ ']' :: ':' :: ' ' :: st ++
        ' ' :: meth ++ ' ' :: forL ++ ' ' :: user ++ ' ' :: fromL ++ ' ' :: sip ++
        ' ' :: portL ++ ' ' :: r) =
      (digits r).map (fun p =>
        [("log_type", "auth"), ("timestamp", String.mk ts),
         ("hostname", String.mk host), ("pid", String.mk pid),
         ("status", String.mk st), ("auth_method", String.mk meth),
         ("username", String.mk user), ("source_ip", String.mk sip),
         ("source_port", String.mk p.1)]) := by
  simp only [List.append_assoc, List.cons_append, List.nil_append]
  rcases hst with rfl | rfl <;>
  · simp only [parse_auth, tok_space hts, tok_space hhost, tok_space hmeth,
      tok_space huser, tok_space hsip,
      ws_nonspace (head_nonspace_of_tok hhost),
      ws_nonspace (head_nonspace_of_tok tokSshdL),
      ws_nonspace (head_nonspace_of_tok tokAcceptedL),
      ws_nonspace (head_nonspace_of_tok tokFailedL),
      ws_nonspace (head_nonspace_of_tok hmeth),
      ws_nonspace (head_nonspace_of_tok tokForL),
      ws_nonspace (head_nonspace_of_tok tokFromL),
      ws_nonspace (head_nonspace_of_tok tokPortL),
      ws_nonspace (head_nonspace_of_tok huser),
      ws_nonspace (head_nonspace_of_tok hsip),
      ws_nonspace hr,
      lit_append, lit_acc_of_failed, lit_rbracket_colon,
      digits_append hpid.1 hpid.2.1 head_nondigit_rbracket]
    cases h : digits r with
    | none => simp
    | some p => cases p; simp

lemma lit_token_space_none {s t rest : List Char} (hnp : ¬ s <+: t)
    (hns : ∀ c ∈ s, isSpace c = false) :
    lit s (t ++ ' ' :: rest) = none := by
  cases h : lit s (t ++ ' ' :: rest) with
  | none => rfl
  | some r =>
    exfalso
    have he : t ++ ' ' :: rest = s ++ r := lit_eq_some.1 h
    rcases List.append_eq_append_iff.1 he with ⟨a', hc, hb⟩ | ⟨c', hc, _⟩
    · cases a' with
      | nil => exact hnp ⟨[], by simp [hc]⟩
      | cons x a'' =>
        have hx : x = ' ' := by
          simp only [List.cons_append, List.cons.injEq] at hb
          exact hb.1.symm
        have hmem : ' ' ∈ s := by
          rw [hc, hx]
          exact List.mem_append.2 (Or.inr (by simp))
        exact absurd (hns ' ' hmem) (by decide)
    · exact hnp ⟨c', hc.symm⟩

/-- The auth matcher rejects any line whose status token differs from the
two literals `Accepted` and `Failed`, however the rest of the line looks. -/
lemma parse_auth_bad_status (ts host pid st rest : List Char)
    (hts : Tok ts) (hhost : Tok host) (hpid : DigitTok pid) (hst : Tok st)
    (hA : st ≠ acceptedL) (hF : st ≠ failedL) :
    parse_auth (ts ++ ' ' :: host ++ ' ' :: sshdL ++ pid ++ ']' :: ':' :: ' ' :: st ++
        ' ' :: rest) = none := by
  simp only [List.append_assoc, List.cons_append, List.nil_append]
  simp only [parse_auth, tok_space hts, tok_space hhost,
    ws_nonspace (head_nonspace_of_tok hhost),
    ws_nonspace (head_nonspace_of_tok tokSshdL),
    ws_nonspace (head_nonspace_of_tok hst),
    lit_append, lit_rbracket_colon,
    digits_append hpid.1 hpid.2.1 head_nondigit_rbracket]
  by_cases hpA : acceptedL <+: st
  · obtain ⟨s', hs'⟩ := hpA
    cases s' with
    | nil => exact absurd (by simpa using hs'.symm) hA
    | cons c s'' =>
      subst hs'
      have hc : isSpace c = false :=
        hst.2 c (List.mem_append.2 (Or.inr (by simp)))
      simp only [List.append_assoc, List.cons_append, lit_append, ws_cons_none hc]
  · by_cases hpF : failedL <+: st
    · obtain ⟨s', hs'⟩ := hpF
      cases s' with
      | nil => exact absurd (by simpa using hs'.symm) hF
      | cons c s'' =>
        subst hs'
        have hc : isSpace c = false :=
          hst.2 c (List.mem_append.2 (Or.inr (by simp)))
        simp only [List.append_assoc, List.cons_append, lit_acc_of_failed,
          lit_append, ws_cons_none hc]
    · simp only [lit_token_space_none hpA tokAcceptedL.2,
        lit_token_space_none hpF tokFailedL.2]

lemma digits_cons_none {c : Char} {x : List Char} (hc : isDigit c = false) :
    digits (c :: x) = none := by
  simp [digits, List.takeWhile_cons, hc]

lemma ws_append_rbracket {t3 rest' : List Char}
    (h : ∀ c ∈ t3, isSpace c = false) :
    ws (t3 ++ ']' :: rest') = none := by
  cases t3 with
  | nil => exact ws_cons_none (by decide)
  | cons a t4 => exact ws_cons_none (h a (by simp))

/-- The auth matcher rejects any line whose pid token (between `sshd[` and
`]:`) contains a non-digit character, wherever that character sits. -/
lemma parse_auth_bad_pid (ts host t rest : List Char)
    (hts : Tok ts) (hhost : Tok host) (htk : Tok t)
    (hnd : ∃ c ∈ t, isDigit c = false) :
    parse_auth (ts ++ ' ' :: host ++ ' ' :: sshdL ++ t ++ ']' :: ':' :: ' ' :: rest) =
      none := by
  simp only [List.append_assoc, List.cons_append, List.nil_append]
  simp only [parse_auth, tok_space hts, tok_space hhost,
    ws_nonspace (head_nonspace_of_tok hhost),
    ws_nonspace (head_nonspace_of_tok tokSshdL),
    lit_append]
  set k := t.takeWhile isDigit with hkdef
  have hsplit : k ++ t.dropWhile isDigit = t :=
    List.takeWhile_append_dropWhile (p := isDigit) (l := t)
  have hkmem : ∀ x ∈ k, isDigit x = true := fun x hx =>
    mem_takeWhile_pred (hkdef ▸ hx)
  cases hdrop : t.dropWhile isDigit with
  | nil =>
    exfalso
    obtain ⟨c, hcmem, hcd⟩ := hnd
    have htw : k = t := by rw [← hsplit, hdrop, List.append_nil]
    have : c ∈ k := by rw [htw]; exact hcmem
    exact absurd (hkmem c this) (by simp [hcd])
  | cons c t2 =>
    have hcd : isDigit c = false := by
      have h0 := List.head?_dropWhile_not isDigit t
      rw [hdrop] at h0
      simpa using h0
    have ht : t = k ++ c :: t2 := by rw [← hsplit, hdrop]
    rw [ht]
    have hbd : ∀ d, (c :: (t2 ++ ']' :: ':' :: ' ' :: rest)).head? = some d →
        isDigit d = false := by
      intro d hd; simp at hd; subst hd; exact hcd
    by_cases hk : k = []
    · rw [hk]
      simp only [List.nil_append, List.append_assoc, List.cons_append,
        digits_cons_none hcd]
    · simp only [List.append_assoc, List.cons_append,
        digits_append hk hkmem hbd]
      by_cases hc1 : c = ']'
      · subst hc1
        cases t2 with
        | nil =>
          have hlit : lit [']', ':'] (']' :: ']' :: ':' :: ' ' :: rest) = none := by
            simp [lit]
          simp only [List.nil_append, hlit]
        | cons c2 t3 =>
          by_cases hc2 : c2 = ':'
          · subst hc2
            have ht3 : ∀ d ∈ t3, isSpace d = false := by
              intro d hd
              refine htk.2 d ?_
              rw [ht]
              exact List.mem_append.2 (Or.inr (by simp [hd]))
            have hws : ws (t3 ++ ']' :: ':' :: ' ' :: rest) = none :=
              ws_append_rbracket ht3
            have hlit : lit [']', ':'] (']' :: ':' :: (t3 ++ ']' :: ':' :: ' ' :: rest)) =
                some (t3 ++ ']' :: ':' :: ' ' :: rest) := lit_rbracket_colon
            simp only [List.cons_append, hlit, hws]
          · have hlit : lit [']', ':'] (']' :: c2 :: (t3 ++ ']' :: ':' :: ' ' :: rest)) =
                none := by
              simp [lit, Ne.symm hc2]
            simp only [List.cons_append, hlit]
      · have hlit : lit [']', ':'] (c :: (t2 ++ ']' :: ':' :: ' ' :: rest)) = none := by
          simp [lit, Ne.symm hc1]
        simp only [hlit]

lemma splitPipe_ne_nil (l : List Char) : splitPipe l ≠ [] := by
  cases l with
  | nil => simp [splitPipe]
  | cons c r =>
    simp only [splitPipe]
    by_cases hc : c = '|'
    · simp [hc]
    · simp only [hc, if_false]
      cases splitPipe r <;> simp

/-- The dict built by the firewall field loop, characterised for every
key: the entry is the value of the LAST `key=value` segment carrying that
key (Python dict overwrite), falling back to the initial dict for keys no
segment carries. -/
lemma lookup_foldl_fwInsert (segs : List (List Char)) :
    ∀ (init : Fields) (k : String),
    (segs.foldl fwInsert init).lookup k =
      match segs.reverse.find?
          (fun s => decide ('=' ∈ s) && (String.mk (keyOf s) == k)) with
      | some s => some (String.mk (valOf s))
      | none => init.lookup k := by
  induction segs with
  | nil => intro init k; rfl
  | cons a segs' ih =>
    intro init k
    rw [List.foldl_cons, ih (fwInsert init a) k, List.reverse_cons,
      List.find?_append]
    cases hfind : segs'.reverse.find?
        (fun s => decide ('=' ∈ s) && (String.mk (keyOf s) == k)) with
    | some s => simp [Option.or]
    | none =>
      simp only [Option.or]
      by_cases ha : '=' ∈ a
      · by_cases hk : String.mk (keyOf a) = k
        · subst hk
          simp [List.find?_cons, ha, fwInsert, List.lookup_cons]
        · have hb1 : (String.mk (keyOf a) == k) = false :=
            beq_eq_false_iff_ne.2 hk
          have hb2 : (k == String.mk (keyOf a)) = false :=
            beq_eq_false_iff_ne.2 (Ne.symm hk)
          simp [List.find?_cons, ha, hb1, hb2, fwInsert, List.lookup_cons]
      · simp [List.find?_cons, ha, fwInsert]

/-- C4: for every input line, `parse_log_line` tries the matchers in the
fixed priority order firewall, DNS, auth, returning the first success, and
returns `none` (Unparseable) when all three fail. -/
theorem C4_dispatch_order (l : List Char) :
    parse_log_line l =
      match parse_firewall l with
      | some r => some r
      | none =>
        match parse_dns l with
        | some r => some r
        | none => parse_auth l := by
  cases hf : parse_firewall l <;> cases hd : parse_dns l <;>
    cases ha : parse_auth l <;>
      simp [parse_log_line, PARSERS, tryParsers, hf, hd, ha]

/-- C6: the firewall matcher rejects a line exactly when the line contains
no `|` or no `=`, or splits into fewer than 3 pipe-delimited segments. -/
theorem C6_firewall_reject (l : List Char) :
    parse_firewall l = none ↔
      ('|' ∉ l ∨ '=' ∉ l ∨ (splitPipe l).length < 3) := by
  unfold parse_firewall
  by_cases h1 : '|' ∈ l ∧ '=' ∈ l
  · by_cases h2 : (splitPipe l).length < 3
    · simp [h1, h2]
    · simp [h1, h2, h1.1, h1.2]
  · rcases not_and_or.1 h1 with h | h <;> simp [h1, h]

/-- C7: a dequeued message whose line matches none of the three grammars
produces no `StoredRow` and the consume loop continues with the remaining
messages. -/
theorem C7_unparseable_no_row (line sf : List Char) (msgs : List Payload)
    (rows : List StoredRow) (h : parse_log_line line = none) :
    processorRun (some (line, sf) :: msgs) rows = processorRun msgs rows := by
  simp [processorRun, h]

/-- C7 witness: the unstructured line `hello world` matches no grammar, is
dropped without a row, and the loop then terminates normally on the empty
stream. -/
theorem C7_witness :
    processorRun [some ("hello world".toList, "app.log".toList)] [] =
      Except.ok [] := by
  have h := C7_unparseable_no_row "hello world".toList "app.log".toList [] []
    (by decide)
  simpa [processorRun] using h

/-- C2 counterexample: a queue payload that cannot be decoded into the two
required fields makes the Processor loop abort with the unhandled decode
exception instead of dropping the message and continuing (which would end
the finite run with `Except.ok []`). -/
theorem C2_counterexample :
    processorRun [none] [] = Except.error "unhandled decode exception" ∧
      processorRun [none] [] ≠ Except.ok [] := by
  constructor
  · rfl
  · intro h
    rw [show processorRun [none] [] = Except.error "unhandled decode exception"
      from rfl] at h
    exact Except.noConfusion h

/-- C2 amended: a dequeued queue payload that cannot be decoded into the
two required fields `line` and `source_file` is NOT treated like a parse
failure: the decode exception is unhandled, so the consume loop aborts
(crashing the Processor) instead of dropping the message and continuing. -/
theorem C2_amended (msgs : List Payload) (rows : List StoredRow) :
    processorRun (none :: msgs) rows = Except.error "unhandled decode exception" :=
  rfl

def dnsCexLine : List Char :=
  "2024-01-15T10:23:45.123Z client 192.168.1.100 query: evil-domain.com IN A + (10.0.0.1) NOERROR extra tokens".toList

/-- C3 counterexample: a line that deviates from the DNS grammar by two
extra trailing tokens is still accepted by the DNS matcher (with the
grammar-position captures), refuting the claim that any deviation makes
this matcher fail. -/
theorem C3_counterexample :
    (parse_dns dnsCexLine).isSome = true ∧
      (parse_dns dnsCexLine).bind (List.lookup "response_code") = some "NOERROR" := by
  decide

/-- C3 witness: the spec's DNS example line, extended with a trailing
token, parses with all captures equal to their grammar substrings; the
same line with the mandatory `IN` token missing is rejected by the DNS
matcher. -/
theorem C3_witness :
    parse_dns ("2024-01-15T10:23:45.123Z".toList ++ ' ' :: clientL ++
        ' ' :: "192.168.1.100".toList ++ ' ' :: queryL ++
        ' ' :: "evil-domain.com".toList ++ ' ' :: inL ++ ' ' :: "A".toList ++
        ' ' :: "+".toList ++ ' ' :: '(' :: "10.0.0.1".toList ++
        ')' :: ' ' :: "NOERROR".toList ++ (' ' :: "extra".toList)) =
      some [("log_type", "dns"), ("timestamp", "2024-01-15T10:23:45.123Z"),
            ("client_ip", "192.168.1.100"), ("query_domain", "evil-domain.com"),
            ("query_type", "A"), ("server_ip", "10.0.0.1"),
            ("response_code", "NOERROR")] ∧
    parse_dns "2024-01-15T10:23:45.123Z client 192.168.1.100 query: evil-domain.com A + (10.0.0.1) NOERROR".toList =
      none := by
  constructor
  · have h := C3_dns_amended.1 "2024-01-15T10:23:45.123Z".toList
      "192.168.1.100".toList "evil-domain.com".toList "A".toList "+".toList
      "10.0.0.1".toList "NOERROR".toList (' ' :: "extra".toList)
      (by decide) (by decide) (by decide) (by decide) (by decide) (by decide)
      (by decide) (by intro c hc; simp at hc; subst hc; decide)
    exact h.trans (by decide)
  · decide

/-- C5: (a) for every line matching the auth grammar — with `Accepted` or
`Failed` status, digit pid, digit port followed by a non-digit (or empty)
continuation — the matcher extracts hostname, pid, status, auth_method,
username, source_ip and source_port exactly as they appear; (b) any status
token other than exactly `Accepted` or `Failed` makes the matcher fail. -/
theorem C5_auth_extract_and_status :
    (∀ ts host pid st meth user sip port tail : List Char, Tok ts → Tok host →
      DigitTok pid → (st = acceptedL ∨ st = failedL) → Tok meth → Tok user →
      Tok sip → DigitTok port → (∀ c, tail.head? = some c → isDigit c = false) →
      parse_auth (ts ++ ' ' :: host ++ ' ' :: sshdL ++ pid ++ ']' :: ':' :: ' ' :: st ++
          ' ' :: meth ++ ' ' :: forL ++ ' ' :: user ++ ' ' :: fromL ++ ' ' :: sip ++
          ' ' :: portL ++ ' ' :: (port ++ tail)) =
        some [("log_type", "auth"), ("timestamp", String.mk ts),
              ("hostname", String.mk host), ("pid", String.mk pid),
              ("status", String.mk st), ("auth_method", String.mk meth),
              ("username", String.mk user), ("source_ip", String.mk sip),
              ("source_port", String.mk port)]) ∧
    (∀ ts host pid st rest : List Char, Tok ts → Tok host → DigitTok pid →
      Tok st → st ≠ acceptedL → st ≠ failedL →
      parse_auth (ts ++ ' ' :: host ++ ' ' :: sshdL ++ pid ++ ']' :: ':' :: ' ' :: st ++
          ' ' :: rest) = none) := by
  constructor
  · intro ts host pid st meth user sip port tail hts hhost hpid hst hmeth huser hsip
      hport htail
    have h := parse_auth_template ts host pid st meth user sip (port ++ tail)
      hts hhost hpid hst hmeth huser hsip
      (head_nonspace_of_tok ⟨hport.1, hport.2.2⟩)
    rw [h, digits_append hport.1 hport.2.1 htail]
    rfl
  · intro ts host pid st rest hts hhost hpid hst hA hF
    exact parse_auth_bad_status ts host pid st rest hts hhost hpid hst hA hF

/-- C5 witness: the spec's auth example line (with its trailing `ssh2`
token, which sits beyond the grammar) parses with every capture equal to
its literal substring; the `Failed` status also instantiates, and a
`Rejected` status makes the matcher fail. -/
theorem C5_witness :
    parse_auth ("2024-01-15T10:23:45.123Z".toList ++ ' ' :: "auth-srv01".toList ++
        ' ' :: sshdL ++ "12345".toList ++ ']' :: ':' :: ' ' :: acceptedL ++
        ' ' :: "password".toList ++ ' ' :: forL ++ ' ' :: "admin".toList ++
        ' ' :: fromL ++ ' ' :: "192.168.1.100".toList ++ ' ' :: portL ++
        ' ' :: ("54321".toList ++ (' ' :: "ssh2".toList))) =
      some [("log_type", "auth"), ("timestamp", "2024-01-15T10:23:45.123Z"),
            ("hostname", "auth-srv01"), ("pid", "12345"),
            ("status", "Accepted"), ("auth_method", "password"),
            ("username", "admin"), ("source_ip", "192.168.1.100"),
            ("source_port", "54321")] ∧
    parse_auth ("t1".toList ++ ' ' :: "h1".toList ++ ' ' :: sshdL ++ "7".toList ++
        ']' :: ':' :: ' ' :: "Rejected".toList ++ ' ' :: "password for admin from 1.2.3.4 port 22".toList) =
      none := by
  constructor
  · have h := C5_auth_extract_and_status.1 "2024-01-15T10:23:45.123Z".toList
      "auth-srv01".toList "12345".toList acceptedL "password".toList
      "admin".toList "192.168.1.100".toList "54321".toList (' ' :: "ssh2".toList)
      (by decide) (by decide) (by decide) (Or.inl rfl) (by decide) (by decide)
      (by decide) (by decide) (by intro c hc; simp at hc; subst hc; decide)
    exact h.trans (by decide)
  · exact C5_auth_extract_and_status.2 "t1".toList "h1".toList "7".toList
      "Rejected".toList "password for admin from 1.2.3.4 port 22".toList
      (by decide) (by decide) (by decide) (by decide) (by decide) (by decide)

def authCexLine : List Char :=
  "2024-01-15T10:23:45.123Z auth-srv01 sshd[12345]: Accepted password for admin from 192.168.1.100 port 54a21".toList

/-- C10 counterexample: a line whose source_port token `54a21` contains
the non-digit `a` is still accepted by the auth matcher — the pattern ends
at `(\d+)`, so only a digit prefix is required — refuting the claim that a
non-digit in the port token makes the matcher fail. -/
theorem C10_counterexample :
    (parse_auth authCexLine).isSome = true ∧
      (parse_auth authCexLine).bind (List.lookup "source_port") = some "54" := by
  decide

/-- C10 amended: the pid token must consist solely of digits — any
non-digit character anywhere in it makes the auth matcher fail — while the
source_port token need only begin with a digit: the matcher captures its
maximal digit prefix as `source_port` and ignores the rest, failing only
when the port position starts with a non-digit. -/
theorem C10_amended :
    (∀ ts host t rest : List Char, Tok ts → Tok host → Tok t →
      (∃ c ∈ t, isDigit c = false) →
      parse_auth (ts ++ ' ' :: host ++ ' ' :: sshdL ++ t ++ ']' :: ':' :: ' ' :: rest) =
        none) ∧
    (∀ ts host pid st meth user sip d : List Char, ∀ c : Char, ∀ rest2 : List Char,
      Tok ts → Tok host → DigitTok pid → (st = acceptedL ∨ st = failedL) →
      Tok meth → Tok user → Tok sip → DigitTok d → isDigit c = false →
      isSpace c = false →
      parse_auth (ts ++ ' ' :: host ++ ' ' :: sshdL ++ pid ++ ']' :: ':' :: ' ' :: st ++
          ' ' :: meth ++ ' ' :: forL ++ ' ' :: user ++ ' ' :: fromL ++ ' ' :: sip ++
          ' ' :: portL ++ ' ' :: (d ++ c :: rest2)) =
        some [("log_type", "auth"), ("timestamp", String.mk ts),
              ("hostname", String.mk host), ("pid", String.mk pid),
              ("status", String.mk st), ("auth_method", String.mk meth),
              ("username", String.mk user), ("source_ip", String.mk sip),
              ("source_port", String.mk d)]) ∧
    (∀ ts host pid st meth user sip : List Char, ∀ c : Char, ∀ rest2 : List Char,
      Tok ts → Tok host → DigitTok pid → (st = acceptedL ∨ st = failedL) →
      Tok meth → Tok user → Tok sip → isDigit c = false → isSpace c = false →
      parse_auth (ts ++ ' ' :: host ++ ' ' :: sshdL ++ pid ++ ']' :: ':' :: ' ' :: st ++
          ' ' :: meth ++ ' ' :: forL ++ ' ' :: user ++ ' ' :: fromL ++ ' ' :: sip ++
          ' ' :: portL ++ ' ' :: (c :: rest2)) = none) := by
  refine ⟨?_, ?_, ?_⟩
  · intro ts host t rest hts hhost htk hnd
    exact parse_auth_bad_pid ts host t rest hts hhost htk hnd
  · intro ts host pid st meth user sip d c rest2 hts hhost hpid hst hmeth huser hsip
      hd hc hcs
    have h := parse_auth_template ts host pid st meth user sip (d ++ c :: rest2)
      hts hhost hpid hst hmeth huser hsip
      (head_nonspace_of_tok ⟨hd.1, hd.2.2⟩)
    rw [h, digits_append hd.1 hd.2.1
      (by intro x hx; simp at hx; subst hx; exact hc)]
    rfl
  · intro ts host pid st meth user sip c rest2 hts hhost hpid hst hmeth huser hsip
      hc hcs
    have h := parse_auth_template ts host pid st meth user sip (c :: rest2)
      hts hhost hpid hst hmeth huser hsip
      (by intro x hx; simp at hx; subst hx; exact hcs)
    rw [h, digits_cons_none hc]
    rfl

/-- C10 witness: a pid token `12a45` makes the matcher fail; a port token
`54a21` is accepted with source_port `54`; a port token `x54` fails. -/
theorem C10_witness :
    parse_auth ("t1".toList ++ ' ' :: "h1".toList ++ ' ' :: sshdL ++ "12a45".toList ++
        ']' :: ':' :: ' ' :: "Accepted password for admin from 1.2.3.4 port 22".toList) =
      none ∧
    parse_auth ("t1".toList ++ ' ' :: "h1".toList ++ ' ' :: sshdL ++ "12345".toList ++
        ']' :: ':' :: ' ' :: acceptedL ++ ' ' :: "pw".toList ++ ' ' :: forL ++
        ' ' :: "admin".toList ++ ' ' :: fromL ++ ' ' :: "1.2.3.4".toList ++
        ' ' :: portL ++ ' ' :: ("54".toList ++ 'a' :: "21".toList)) =
      some [("log_type", "auth"), ("timestamp", "t1"), ("hostname", "h1"),
            ("pid", "12345"), ("status", "Accepted"), ("auth_method", "pw"),
            ("username", "admin"), ("source_ip", "1.2.3.4"),
            ("source_port", "54")] ∧
    parse_auth ("t1".toList ++ ' ' :: "h1".toList ++ ' ' :: sshdL ++ "12345".toList ++
        ']' :: ':' :: ' ' :: acceptedL ++ ' ' :: "pw".toList ++ ' ' :: forL ++
        ' ' :: "admin".toList ++ ' ' :: fromL ++ ' ' :: "1.2.3.4".toList ++
        ' ' :: portL ++ ' ' :: ('x' :: "54".toList)) = none := by
  refine ⟨?_, ?_, ?_⟩
  · exact C10_amended.1 "t1".toList "h1".toList "12a45".toList
      "Accepted password for admin from 1.2.3.4 port 22".toList
      (by decide) (by decide) (by decide) (by decide)
  · have h := C10_amended.2.1 "t1".toList "h1".toList "12345".toList acceptedL
      "pw".toList "admin".toList "1.2.3.4".toList "54".toList 'a' "21".toList
      (by decide) (by decide) (by decide) (Or.inl rfl) (by decide) (by decide)
      (by decide) (by decide) (by decide) (by decide)
    exact h.trans (by decide)
  · exact C10_amended.2.2 "t1".toList "h1".toList "12345".toList acceptedL
      "pw".toList "admin".toList "1.2.3.4".toList 'x' "54".toList
      (by decide) (by decide) (by decide) (Or.inl rfl) (by decide) (by decide)
      (by decide) (by decide) (by decide)

def fwCexLine : List Char := "t|log_type=evil|timestamp=99".toList

/-- C1 counterexample: the firewall matcher accepts this line, but the
`log_type=evil` and `timestamp=99` segments overwrite the dict entries the
matcher installed, so the returned record carries `log_type=evil` (not
`firewall`) and `timestamp=99` (not the segment `t` before the first pipe),
refuting the claim as stated. -/
theorem C1_counterexample :
    (parse_firewall fwCexLine).isSome = true ∧
    (parse_firewall fwCexLine).bind (List.lookup "log_type") = some "evil" ∧
    (parse_firewall fwCexLine).bind (List.lookup "log_type") ≠ some "firewall" ∧
    (parse_firewall fwCexLine).bind (List.lookup "timestamp") = some "99" ∧
    String.mk (splitPipe fwCexLine).headI = "t" := by
  decide

/-- C1 amended: for every non-blank line the firewall matcher accepts,
the returned record maps each key to the value of the LAST `key=value`
segment carrying that key (Python dict overwrite semantics), falling back
to the matcher's initial entries `log_type=firewall` and `timestamp` =
segment before the first `|` for keys no segment carries.  Consequently
the record has an entry for every `key=value` pair present, and when no
segment after the first carries the key `log_type` or `timestamp`, the
record has `log_type=firewall` and `timestamp` equal to the segment
before the first `|`. -/
theorem C1_amended (l : List Char) (m : Fields)
    (hm : parse_firewall l = some m) :
    (∀ k : String, m.lookup k =
      match (splitPipe l).tail.reverse.find?
          (fun s => decide ('=' ∈ s) && (String.mk (keyOf s) == k)) with
      | some s => some (String.mk (valOf s))
      | none => List.lookup k
          [("log_type", "firewall"), ("timestamp", String.mk (splitPipe l).headI)]) ∧
    ((∀ s ∈ (splitPipe l).tail, '=' ∈ s →
        String.mk (keyOf s) ≠ "log_type" ∧ String.mk (keyOf s) ≠ "timestamp") →
      m.lookup "log_type" = some "firewall" ∧
      m.lookup "timestamp" = some (String.mk (splitPipe l).headI)) ∧
    (∀ s ∈ (splitPipe l).tail, '=' ∈ s →
      (m.lookup (String.mk (keyOf s))).isSome = true) := by
  simp only [parse_firewall] at hm
  by_cases h1 : '|' ∈ l ∧ '=' ∈ l
  · rw [if_pos h1] at hm
    by_cases h2 : (splitPipe l).length < 3
    · rw [if_pos h2] at hm
      exact absurd hm (by simp)
    · rw [if_neg h2] at hm
      have hm' : (splitPipe l).tail.foldl fwInsert
          [("log_type", "firewall"), ("timestamp", String.mk (splitPipe l).headI)] =
            m := Option.some.inj hm
      subst hm'
      have hchar := lookup_foldl_fwInsert (splitPipe l).tail
        [("log_type", "firewall"), ("timestamp", String.mk (splitPipe l).headI)]
      have hfnone : ∀ key : String,
          (∀ s ∈ (splitPipe l).tail, '=' ∈ s → String.mk (keyOf s) ≠ key) →
          (splitPipe l).tail.reverse.find?
            (fun s => decide ('=' ∈ s) && (String.mk (keyOf s) == key)) = none := by
        intro key hkey
        rw [List.find?_eq_none]
        intro x hx
        rw [List.mem_reverse] at hx
        by_cases hex : '=' ∈ x
        · simp [hex, beq_eq_false_iff_ne.2 (hkey x hx hex)]
        · simp [hex]
      refine ⟨fun k => hchar k, fun hk => ?_, fun s hs he => ?_⟩
      · constructor
        · rw [hchar "log_type", hfnone "log_type" (fun s hs he => (hk s hs he).1)]
          rfl
        · rw [hchar "timestamp", hfnone "timestamp" (fun s hs he => (hk s hs he).2)]
          rfl
      · rw [hchar (String.mk (keyOf s))]
        have hsome : ((splitPipe l).tail.reverse.find?
            (fun s' => decide ('=' ∈ s') &&
              (String.mk (keyOf s') == String.mk (keyOf s)))).isSome = true := by
          rw [List.find?_isSome]
          exact ⟨s, List.mem_reverse.2 hs, by simp [he]⟩
        cases hfind : (splitPipe l).tail.reverse.find?
            (fun s' => decide ('=' ∈ s') &&
              (String.mk (keyOf s') == String.mk (keyOf s))) with
        | some s' => simp
        | none => rw [hfind] at hsome; simp at hsome
  · rw [if_neg h1] at hm
    exact absurd hm (by simp)

def fwExampleLine : List Char :=
  "2024-01-15T10:23:45.123Z|action=accept|src=192.168.1.100|dst=10.0.0.50|proto=TCP|src_port=54321|dst_port=443|bytes_sent=1524|rule=web_access".toList

def fwExampleFields : Fields :=
  [("rule", "web_access"), ("bytes_sent", "1524"), ("dst_port", "443"),
   ("src_port", "54321"), ("proto", "TCP"), ("dst", "10.0.0.50"),
   ("src", "192.168.1.100"), ("action", "accept"),
   ("log_type", "firewall"), ("timestamp", "2024-01-15T10:23:45.123Z")]

/-- C1 witness: the spec's firewall example line parses to a record with
`log_type=firewall`, `timestamp` equal to the first segment, and an entry
for each `key=value` segment. -/
theorem C1_witness :
    parse_firewall fwExampleLine = some fwExampleFields ∧
    fwExampleFields.lookup "log_type" = some "firewall" ∧
    fwExampleFields.lookup "timestamp" =
      some (String.mk (splitPipe fwExampleLine).headI) ∧
    fwExampleFields.lookup "action" = some "accept" := by
  have h := C1_amended fwExampleLine fwExampleFields (by decide)
  have hlt := h.2.1 (by decide)
  have ha : fwExampleFields.lookup "action" = some "accept" := by
    rw [h.1 "action"]
    decide
  exact ⟨by decide, hlt.1, hlt.2, ha⟩

/-- C8: a sweep of the Reader (i) streams each unprocessed `.log` file,
enqueuing its messages in file order and marking the file processed,
(ii) ignores files without the `.log` suffix, (iii) skips files already
processed, (iv) handles a listing sequentially file by file, and (v) the
messages of a file are exactly one per non-blank line (after trimming),
in file order, each carrying the file's name as `source_file`. -/
theorem C8_reader_sweep :
    (∀ (name : List Char) (lines : List (List Char)) processed queue,
      name ∉ processed → isLogFile name = true →
      readerSweep [(name, lines)] processed queue =
        (processed ++ [name], queue ++ fileMessages name lines)) ∧
    (∀ (name : List Char) (lines : List (List Char)) processed queue,
      isLogFile name = false →
      readerSweep [(name, lines)] processed queue = (processed, queue)) ∧
    (∀ (name : List Char) (lines : List (List Char)) processed queue,
      name ∈ processed →
      readerSweep [(name, lines)] processed queue = (processed, queue)) ∧
    (∀ (f : List Char × List (List Char)) rest processed queue,
      readerSweep (f :: rest) processed queue =
        readerSweep rest (readerSweep [f] processed queue).1
          (readerSweep [f] processed queue).2) ∧
    (∀ (name : List Char) (lines : List (List Char)),
      fileMessages name lines =
        ((lines.map strip).filter (fun t => t ≠ [])).map
          (fun t => ⟨t, name⟩)) := by
  refine ⟨?_, ?_, ?_, ?_, ?_⟩
  · intro name lines processed queue hni hlog
    simp [readerSweep, hni, hlog]
  · intro name lines processed queue hlog
    simp [readerSweep, hlog]
  · intro name lines processed queue hmem
    simp [readerSweep, hmem]
  · rintro ⟨name, lines⟩ rest processed queue
    by_cases h : name ∈ processed ∨ isLogFile name = false
    · simp [readerSweep, h]
    · simp [readerSweep, h]
  · intro name lines
    induction lines with
    | nil => rfl
    | cons a ls ih =>
      by_cases h : strip a = []
      · simpa [fileMessages, List.filterMap_cons, h] using ih
      · simpa [fileMessages, List.filterMap_cons, h] using ih

/-- C8 witness: a sweep over a fresh `app.log` with one payload line and
one blank line enqueues exactly one message attributed to `app.log`; a
`notes.txt` file is ignored. -/
theorem C8_witness :
    readerSweep [("app.log".toList, ["x".toList, "   ".toList])] [] [] =
      (["app.log".toList], [⟨"x".toList, "app.log".toList⟩]) ∧
    readerSweep [("notes.txt".toList, ["x".toList])] [] [] = ([], []) := by
  constructor
  · have h := C8_reader_sweep.1 "app.log".toList ["x".toList, "   ".toList] [] []
      (by simp) (by decide)
    exact h.trans (by decide)
  · exact C8_reader_sweep.2.1 "notes.txt".toList ["x".toList] [] [] (by decide)

/-- C9: when every connection attempt fails, the Processor's store
connection helper makes exactly 5 attempts with a fixed 2-second backoff
between consecutive attempts (4 sleeps) and then re-raises, so the failure
propagates and terminates the process; when attempt `i < 5` is the first
to succeed it returns after `i` backoff sleeps; the broker client helper
performs no retry at all. -/
theorem C9_pg_retry :
    (∀ ok, (∀ i, i < 5 → ok i = false) → get_pg_connection ok = (none, 4)) ∧
    (∀ ok i, i < 5 → ok i = true → (∀ j, j < i → ok j = false) →
      get_pg_connection ok = (some i, i)) ∧
    get_redis_client false = (none, 0) := by
  have hrange : List.range 5 = [0, 1, 2, 3, 4] := by decide
  refine ⟨?_, ?_, rfl⟩
  · intro ok h
    simp [get_pg_connection, hrange, pgLoop,
      h 0 (by omega), h 1 (by omega), h 2 (by omega), h 3 (by omega),
      h 4 (by omega)]
  · intro ok i hi hok hbefore
    have hcases : i = 0 ∨ i = 1 ∨ i = 2 ∨ i = 3 ∨ i = 4 := by omega
    rcases hcases with rfl | rfl | rfl | rfl | rfl
    · simp [get_pg_connection, hrange, pgLoop, hok]
    · simp [get_pg_connection, hrange, pgLoop, hok, hbefore 0 (by omega)]
    · simp [get_pg_connection, hrange, pgLoop, hok,
        hbefore 0 (by omega), hbefore 1 (by omega)]
    · simp [get_pg_connection, hrange, pgLoop, hok,
        hbefore 0 (by omega), hbefore 1 (by omega), hbefore 2 (by omega)]
    · simp [get_pg_connection, hrange, pgLoop, hok,
        hbefore 0 (by omega), hbefore 1 (by omega), hbefore 2 (by omega),
        hbefore 3 (by omega)]

/-- C9 witness: with a store that never comes up the helper gives up after
5 attempts and 4 backoff sleeps; with a store that first answers on the
third attempt it succeeds after 2 backoff sleeps. -/
theorem C9_witness :
    get_pg_connection (fun _ => false) = (none, 4) ∧
    get_pg_connection (fun i => decide (i = 2)) = (some 2, 2) := by
  constructor
  · exact C9_pg_retry.1 _ (fun i _ => rfl)
  · refine C9_pg_retry.2.1 _ 2 (by omega) (by decide) ?_
    intro j hj
    have hj2 : j = 0 ∨ j = 1 := by omega
    rcases hj2 with rfl | rfl <;> rfl
